import Mathlib

/-!
Verification of the gateway subsystem of `goroutine-3000`: the token-bucket
rate limiter (`pkg/ratelimit/token_bucket.go`), the multi-key limiter
(`pkg/ratelimit/limiter.go`), the rate-limit HTTP middleware
(`pkg/middleware/ratelimit.go`), and the route/backend registry with
round-robin selection and health checking (`pkg/gateway/gateway.go`).

Times and durations are modelled as `Int` nanoseconds (Go `time.Time` /
`time.Duration`); token counts are `Int` (Go `int64`).  Go's truncated
integer division agrees with Lean's `Int` division on the non-negative
operands the code actually reaches (refill divides only when
`elapsed ≥ interval`).  Each Go method that mutates its receiver becomes a
function returning the result together with the updated state; the mutex
acquisitions in the source make every such method atomic, so a concurrent
execution is modelled as a sequence of these atomic steps in an arbitrary
order.
-/

namespace Goroutine3000

/-- `TokenBucket` from `pkg/ratelimit/token_bucket.go`: capacity, current
tokens, refill rate, refill interval (ns) and the last-refill timestamp. -/
structure TokenBucket where
  capacity : Int
  tokens : Int
  refillRate : Int
  interval : Int
  lastRefill : Int
deriving Repr, DecidableEq

/-- `NewTokenBucket`: starts full (`tokens = capacity`) with
`lastRefill = now`. -/
def NewTokenBucket (capacity refillRate interval now : Int) : TokenBucket :=
  { capacity := capacity
    tokens := capacity
    refillRate := refillRate
    interval := interval
    lastRefill := now }

namespace TokenBucket

/-- `TokenBucket.refill`: if `elapsed < interval` do nothing; otherwise add
`(elapsed / interval) * refillRate` tokens, clamp from above at `capacity`,
and advance `lastRefill` by `periods * interval` (not to `now`). -/
def refill (tb : TokenBucket) (now : Int) : TokenBucket :=
  let elapsed := now - tb.lastRefill
  if elapsed < tb.interval then tb
  else
    let periods := elapsed / tb.interval
    let tokensToAdd := periods * tb.refillRate
    let t := tb.tokens + tokensToAdd
    { tb with
      tokens := if t > tb.capacity then tb.capacity else t
      lastRefill := tb.lastRefill + periods * tb.interval }

/-- `TokenBucket.Allow`: refill, then consume one token iff `tokens > 0`. -/
def Allow (tb : TokenBucket) (now : Int) : Bool × TokenBucket :=
  let tb := tb.refill now
  if tb.tokens > 0 then (true, { tb with tokens := tb.tokens - 1 })
  else (false, tb)

/-- `TokenBucket.AllowN`: refill, then consume `n` tokens iff `tokens ≥ n`. -/
def AllowN (tb : TokenBucket) (n : Int) (now : Int) : Bool × TokenBucket :=
  let tb := tb.refill now
  if tb.tokens ≥ n then (true, { tb with tokens := tb.tokens - n })
  else (false, tb)

/-- `TokenBucket.Available`: refill, then report the token count. -/
def Available (tb : TokenBucket) (now : Int) : Int × TokenBucket :=
  let tb := tb.refill now
  (tb.tokens, tb)

/-- `TokenBucket.Capacity`: pure accessor. -/
def Capacity (tb : TokenBucket) : Int :=
  tb.capacity

end TokenBucket

/-- One atomic call against a bucket: `Allow` or `AllowN n`, performed at
absolute time `now`. -/
inductive BucketOp where
  | allow (now : Int)
  | allowN (n : Int) (now : Int)
deriving Repr, DecidableEq

/-- Run a sequence of `Allow`/`AllowN` calls against a bucket (the bucket's
mutex serialises concurrent callers, so any interleaving is some such
sequence). -/
def runOps (tb : TokenBucket) : List BucketOp → TokenBucket
  | [] => tb
  | BucketOp.allow now :: rest => runOps (tb.Allow now).2 rest
  | BucketOp.allowN n now :: rest => runOps (tb.AllowN n now).2 rest

/-- The capacity-bound invariant of the spec's data model. -/
def BucketInv (tb : TokenBucket) : Prop :=
  0 ≤ tb.tokens ∧ tb.tokens ≤ tb.capacity

instance (tb : TokenBucket) : Decidable (BucketInv tb) := by
  unfold BucketInv; infer_instance

/-- `n` identical `Allow` calls at time `now`; returns how many were admitted
together with the final bucket. -/
def runAllows (tb : TokenBucket) (now : Int) : Nat → Nat × TokenBucket
  | 0 => (0, tb)
  | Nat.succ k =>
    let r := tb.Allow now
    let rest := runAllows r.2 now k
    ((if r.1 then 1 else 0) + rest.1, rest.2)

/-- A well-formed call: `AllowN` is only ever invoked with a non-negative
token demand (every call site in the repository passes a positive count). -/
def OpNonneg : BucketOp → Prop
  | BucketOp.allow _ => True
  | BucketOp.allowN n _ => 0 ≤ n

instance (op : BucketOp) : Decidable (OpNonneg op) := by
  cases op <;> unfold OpNonneg <;> infer_instance

/-- Lookup in a Go map modelled as an association list (at most one entry
per key): the value stored at `k`, if any. -/
def lookupKey {α : Type} : List (String × α) → String → Option α
  | [], _ => none
  | kv :: rest, k => if kv.1 = k then some kv.2 else lookupKey rest k

/-- `Limiter` from `pkg/ratelimit/limiter.go`: a map from keys to buckets
(modelled as an association list with at most one entry per key, matching the
Go map) plus the limiter-wide defaults and the cleanup clock. -/
structure Limiter where
  buckets : List (String × TokenBucket)
  capacity : Int
  refillRate : Int
  interval : Int
  cleanupInterval : Int
  lastCleanup : Int
deriving Repr, DecidableEq

/-- `NewLimiter`: empty map, `cleanupInterval = 5 * time.Minute` (in ns),
`lastCleanup = now`. -/
def NewLimiter (capacity refillRate interval now : Int) : Limiter :=
  { buckets := []
    capacity := capacity
    refillRate := refillRate
    interval := interval
    cleanupInterval := 5 * 60 * 1000000000
    lastCleanup := now }

namespace Limiter

/-- `Limiter.cleanupIfNeeded`: when `now - lastCleanup ≥ cleanupInterval`,
delete every bucket whose `Available()` equals its `Capacity()`.  `Available`
refills the bucket it inspects, and the Go map stores pointers, so surviving
buckets keep that refilled state. -/
def cleanupIfNeeded (l : Limiter) (now : Int) : Limiter :=
  if now - l.lastCleanup < l.cleanupInterval then l
  else
    { l with
      buckets :=
        (l.buckets.map (fun kb => (kb.1, (kb.2.Available now).2))).filter
          (fun kb => ¬ kb.2.tokens = kb.2.Capacity)
      lastCleanup := now }

/-- `Limiter.getBucket`: return the existing bucket for `key`, or create a
full one, insert it, and run `cleanupIfNeeded`.  The Go method returns a
pointer to the bucket it created, so when cleanup evicts the fresh entry the
caller still holds the (possibly refilled-by-`Available`) orphan bucket. -/
def getBucket (l : Limiter) (key : String) (now : Int) : TokenBucket × Limiter :=
  match lookupKey l.buckets key with
  | some bucket => (bucket, l)
  | none =>
    let bucket := NewTokenBucket l.capacity l.refillRate l.interval now
    let l1 : Limiter := { l with buckets := (key, bucket) :: l.buckets }
    let l2 := l1.cleanupIfNeeded now
    match lookupKey l2.buckets key with
    | some b => (b, l2)
    | none => ((bucket.Available now).2, l2)

/-- Write an updated bucket back through the map pointer: the entry for
`key`, when it still exists, aliases the bucket the caller mutated. -/
def storeBucket (l : Limiter) (key : String) (b : TokenBucket) : Limiter :=
  if (lookupKey l.buckets key).isSome then
    { l with buckets := l.buckets.map (fun kb => if kb.1 = key then (kb.1, b) else kb) }
  else l

/-- `Limiter.Allow(key)`: delegate to the key's bucket. -/
def Allow (l : Limiter) (key : String) (now : Int) : Bool × Limiter :=
  let r := l.getBucket key now
  let a := r.1.Allow now
  (a.1, r.2.storeBucket key a.2)

/-- `Limiter.AllowN(key, n)`: delegate to the key's bucket. -/
def AllowN (l : Limiter) (key : String) (n : Int) (now : Int) : Bool × Limiter :=
  let r := l.getBucket key now
  let a := r.1.AllowN n now
  (a.1, r.2.storeBucket key a.2)

end Limiter

/-- The payload of `Limiter.Stats()`: `total_keys`, `capacity`,
`refill_rate`, `interval_ms`. -/
structure LimiterStats where
  total_keys : Nat
  capacity : Int
  refill_rate : Int
  interval_ms : Int
deriving Repr, DecidableEq

/-- `Limiter.Stats`: read-only snapshot; `interval_ms` is
`interval.Milliseconds()`. -/
def Limiter.Stats (l : Limiter) : LimiterStats :=
  { total_keys := l.buckets.length
    capacity := l.capacity
    refill_rate := l.refillRate
    interval_ms := l.interval / 1000000 }

/-- The rate-limit headers a response may carry (from
`pkg/middleware/ratelimit.go`): `X-RateLimit-Limit` and `X-RateLimit-Reset`,
absent when never set. -/
structure RateLimitHeaders where
  limit : Option Int
  reset : Option Int
deriving Repr, DecidableEq

/-- `time.Time.Unix()` on a nanosecond timestamp: whole seconds since the
epoch. -/
def unixSeconds (t : Int) : Int :=
  t / 1000000000

/-- `AddRateLimitHeaders`: sets `X-RateLimit-Limit` to the limiter's
capacity and `X-RateLimit-Reset` to the epoch seconds of
`now + interval_ms milliseconds`. -/
def AddRateLimitHeaders (l : Limiter) (now : Int) : RateLimitHeaders :=
  { limit := some l.Stats.capacity
    reset := some (unixSeconds (now + l.Stats.interval_ms * 1000000)) }

/-- Outcome of one request through the `RateLimit` middleware: whether it was
forwarded to the next handler, the response status the middleware itself
forced (`429` on denial, none otherwise), and the rate-limit headers set. -/
structure MiddlewareOutcome where
  forwarded : Bool
  forcedStatus : Option Nat
  headers : RateLimitHeaders
deriving Repr, DecidableEq

/-- `DefaultRateLimitHandler`: writes `429 Too Many Requests` with a JSON
body; it sets no rate-limit headers. -/
def DefaultRateLimitHandler : MiddlewareOutcome :=
  { forwarded := false
    forcedStatus := some 429
    headers := { limit := none, reset := none } }

/-- The `RateLimit` middleware with the default denial handler: skip when
configured, otherwise `Limiter.Allow(key)`; on denial invoke
`DefaultRateLimitHandler`, on admission call `AddRateLimitHeaders` and
forward. -/
def RateLimitMiddleware (l : Limiter) (skip : Bool) (key : String) (now : Int) :
    MiddlewareOutcome × Limiter :=
  if skip then
    ({ forwarded := true, forcedStatus := none
       headers := { limit := none, reset := none } }, l)
  else
    let a := l.Allow key now
    if a.1 then
      ({ forwarded := true, forcedStatus := none
         headers := AddRateLimitHeaders a.2 now }, a.2)
    else
      (DefaultRateLimitHandler, a.2)

/-- `Backend` from `pkg/gateway/gateway.go`: target URL and liveness flag
(the reverse proxy is opaque to this model). -/
structure Backend where
  URL : String
  Alive : Bool
deriving Repr, DecidableEq

/-- `Backend.IsAlive`. -/
def Backend.IsAlive (b : Backend) : Bool :=
  b.Alive

/-- `Backend.SetAlive`. -/
def Backend.SetAlive (b : Backend) (alive : Bool) : Backend :=
  { b with Alive := alive }

/-- `Route`: path, fixed backend list, round-robin cursor (`current`). -/
structure Route where
  Path : String
  Backends : List Backend
  current : Nat
deriving Repr, DecidableEq

/-- The scan loop of `Route.NextBackend`: up to `fuel` iterations of
`current = (current + 1) % len(backends); if alive, stop`.  Returns the
selected backend (if any) and the final cursor. -/
def nextBackendLoop (backends : List Backend) : Nat → Nat → Option Backend × Nat
  | current, 0 => (none, current)
  | current, Nat.succ k =>
    let cur := (current + 1) % backends.length
    match backends.get? cur with
    | some b => if b.IsAlive then (some b, cur) else nextBackendLoop backends cur k
    | none => (none, cur)

/-- `Route.NextBackend`: advance the cursor and scan at most
`len(Backends)` positions for an alive backend. -/
def Route.NextBackend (r : Route) : Option Backend × Route :=
  let s := nextBackendLoop r.Backends r.current r.Backends.length
  (s.1, { r with current := s.2 })

/-- The spec's round-robin example route: backends
`[B1 alive, B2 dead, B3 alive]`, cursor at its zero value. -/
def cycleRoute : Route :=
  { Path := "/svc"
    Backends :=
      [{ URL := "b1", Alive := true },
       { URL := "b2", Alive := false },
       { URL := "b3", Alive := true }]
    current := 0 }

/-- `Gateway`: the routing table (path → route, an association list with at
most one entry per path, matching the Go map) plus the shared limiter and the
health-check period. -/
structure Gateway where
  routes : List (String × Route)
  limiter : Limiter
  healthCheck : Int
deriving Repr, DecidableEq

/-- Go map assignment `m[k] = v`: replace the entry when present, insert
otherwise. -/
def mapSet (m : List (String × Route)) (k : String) (v : Route) :
    List (String × Route) :=
  if (lookupKey m k).isSome then
    m.map (fun kv => if kv.1 = k then (kv.1, v) else kv)
  else (k, v) :: m

/-- The backend-construction loop of `Gateway.AddRoute`: parse every target
URL (the parser stands for `url.Parse`; `none` is a parse error), building a
`Backend` marked alive for each; the first failure aborts with that URL's
error. -/
def buildBackends (parseURL : String → Option String) :
    List String → Except String (List Backend)
  | [] => Except.ok []
  | u :: rest =>
    match parseURL u with
    | none => Except.error ("invalid backend URL " ++ u)
    | some parsed =>
      match buildBackends parseURL rest with
      | Except.error e => Except.error e
      | Except.ok bs => Except.ok ({ URL := parsed, Alive := true } :: bs)

/-- `Gateway.AddRoute(path, backendURLs)`: build the route's backends; any
unparseable target returns the error with the routing table untouched;
otherwise install (or replace) the route at `path`. -/
def Gateway.AddRoute (g : Gateway) (parseURL : String → Option String)
    (path : String) (backendURLs : List String) : Option String × Gateway :=
  match buildBackends parseURL backendURLs with
  | Except.error e => (some e, g)
  | Except.ok bs =>
    (none, { g with routes := mapSet g.routes path { Path := path, Backends := bs, current := 0 } })

/-- What a health probe of one backend can observe: the request could not be
built, the request failed in transport, or a response with a status code
arrived. -/
inductive ProbeResult where
  | requestError
  | transportError
  | response (status : Nat)
deriving Repr, DecidableEq

/-- `Gateway.isBackendAlive`: any error is "not alive"; a response is alive
iff `200 ≤ status < 500`. -/
def isBackendAlive : ProbeResult → Bool
  | ProbeResult.requestError => false
  | ProbeResult.transportError => false
  | ProbeResult.response status => decide (200 ≤ status ∧ status < 500)

/-- `Gateway.healthCheckAll`: probe every backend of every route and
`SetAlive` it to the probe's verdict (`probe` gives each backend's observed
outcome for this tick). -/
def healthCheckAll (routes : List Route) (probe : Backend → ProbeResult) :
    List Route :=
  routes.map (fun r =>
    { r with Backends := r.Backends.map (fun b => b.SetAlive (isBackendAlive (probe b))) })

/-- C1: the refill step run at the start of every `TokenBucket` operation
(`Allow`, `AllowN`, `Available`) leaves the bucket unchanged when
`elapsed = now - lastRefill < interval`; otherwise, with
`periods = elapsed / interval`, it sets `tokens` to
`min (tokens + periods * refillRate) capacity` and advances `lastRefill` by
exactly `periods * interval` (never to `now`), so the fractional remainder
`elapsed - periods * interval` stays in `[0, interval)` toward the next
period. -/
theorem refill_step_spec (tb : Goroutine3000.TokenBucket) (n now : Int)
    (h : 0 < tb.interval) :
    (now - tb.lastRefill < tb.interval → tb.refill now = tb) ∧
    (tb.interval ≤ now - tb.lastRefill →
      (tb.refill now).tokens =
        min (tb.tokens + (now - tb.lastRefill) / tb.interval * tb.refillRate)
          tb.capacity ∧
      (tb.refill now).lastRefill =
        tb.lastRefill + (now - tb.lastRefill) / tb.interval * tb.interval ∧
      0 ≤ (now - tb.lastRefill) - (now - tb.lastRefill) / tb.interval * tb.interval ∧
      (now - tb.lastRefill) - (now - tb.lastRefill) / tb.interval * tb.interval
        < tb.interval) ∧
    (tb.Available now).2 = tb.refill now ∧
    (tb.Available now).1 = (tb.refill now).tokens ∧
    (tb.Allow now).2.lastRefill = (tb.refill now).lastRefill ∧
    (tb.AllowN n now).2.lastRefill = (tb.refill now).lastRefill := by
  refine ⟨?_, ?_, rfl, rfl, ?_, ?_⟩
  · intro hlt
    unfold Goroutine3000.TokenBucket.refill
    simp [hlt]
  · intro hge
    have hcond : ¬ (now - tb.lastRefill < tb.interval) := not_lt.mpr hge
    have hdm := Int.ediv_add_emod (now - tb.lastRefill) tb.interval
    have hm0 : 0 ≤ (now - tb.lastRefill) % tb.interval :=
      Int.emod_nonneg _ (ne_of_gt h)
    have hmlt : (now - tb.lastRefill) % tb.interval < tb.interval :=
      Int.emod_lt_of_pos _ h
    have hcomm : (now - tb.lastRefill) / tb.interval * tb.interval =
        tb.interval * ((now - tb.lastRefill) / tb.interval) := mul_comm _ _
    refine ⟨?_, ?_, by linarith, by linarith⟩
    · unfold Goroutine3000.TokenBucket.refill
      rw [if_neg hcond]
      rcases le_or_lt (tb.tokens + (now - tb.lastRefill) / tb.interval * tb.refillRate)
          tb.capacity with hA | hA
      · simpa [not_lt.mpr hA] using (min_eq_left hA).symm
      · simpa [hA] using (min_eq_right (le_of_lt hA)).symm
    · unfold Goroutine3000.TokenBucket.refill
      rw [if_neg hcond]
  · unfold Goroutine3000.TokenBucket.Allow
    rcases lt_or_le 0 (tb.refill now).tokens with h1 | h1
    · simp [h1]
    · simp [not_lt.mpr h1]
  · unfold Goroutine3000.TokenBucket.AllowN
    rcases le_or_lt n (tb.refill now).tokens with h1 | h1
    · simp [h1]
    · simp [not_le.mpr h1]

/-- Witness for C1: a concrete bucket (capacity 10, refill 5, interval 100,
last refill 0) probed at time 250 has elapsed 250, two whole periods, and
`refill` advances `lastRefill` to exactly 200 with tokens clamped at 10. -/
theorem refill_step_spec_witness :
    ((Goroutine3000.NewTokenBucket 10 5 100 0).refill 250).tokens =
      min ((Goroutine3000.NewTokenBucket 10 5 100 0).tokens
        + (250 - (Goroutine3000.NewTokenBucket 10 5 100 0).lastRefill)
          / (Goroutine3000.NewTokenBucket 10 5 100 0).interval
          * (Goroutine3000.NewTokenBucket 10 5 100 0).refillRate)
        (Goroutine3000.NewTokenBucket 10 5 100 0).capacity ∧
    ((Goroutine3000.NewTokenBucket 10 5 100 0).refill 250).lastRefill =
      (Goroutine3000.NewTokenBucket 10 5 100 0).lastRefill
        + (250 - (Goroutine3000.NewTokenBucket 10 5 100 0).lastRefill)
          / (Goroutine3000.NewTokenBucket 10 5 100 0).interval
          * (Goroutine3000.NewTokenBucket 10 5 100 0).interval :=
  ⟨((refill_step_spec (Goroutine3000.NewTokenBucket 10 5 100 0) 1 250
      (by decide)).2.1 (by decide)).1,
   ((refill_step_spec (Goroutine3000.NewTokenBucket 10 5 100 0) 1 250
      (by decide)).2.1 (by decide)).2.1⟩

/-- C5: `AllowN n` is all-or-nothing: after the refill step it succeeds and
subtracts `n` exactly when the refilled token count is at least `n`, fails
leaving the refilled state untouched otherwise, never drives a non-negative
token count negative, and the spec's capacity-10 example
(AllowN 5 ok → 5 left, AllowN 6 fails → 5 left, AllowN 5 ok → 0 left)
holds. -/
theorem allowN_all_or_nothing (tb : Goroutine3000.TokenBucket) (n now : Int) :
    ((tb.AllowN n now).1 = true ↔ n ≤ (tb.refill now).tokens) ∧
    (n ≤ (tb.refill now).tokens →
      tb.AllowN n now =
        (true, { tb.refill now with tokens := (tb.refill now).tokens - n })) ∧
    ((tb.refill now).tokens < n → tb.AllowN n now = (false, tb.refill now)) ∧
    (0 ≤ (tb.refill now).tokens → 0 ≤ (tb.AllowN n now).2.tokens) ∧
    ((Goroutine3000.NewTokenBucket 10 10 1000000000 0).AllowN 5 0).1 = true ∧
    (((Goroutine3000.NewTokenBucket 10 10 1000000000 0).AllowN 5 0).2.AllowN 6 0).1
      = false ∧
    (((Goroutine3000.NewTokenBucket 10 10 1000000000 0).AllowN 5 0).2.AllowN 6 0).2.tokens
      = 5 ∧
    ((((Goroutine3000.NewTokenBucket 10 10 1000000000 0).AllowN 5 0).2.AllowN 6 0).2.AllowN 5 0).1
      = true ∧
    ((((Goroutine3000.NewTokenBucket 10 10 1000000000 0).AllowN 5 0).2.AllowN 6 0).2.AllowN 5 0).2.tokens
      = 0 := by
  refine ⟨?_, ?_, ?_, ?_, by decide, by decide, by decide, by decide, by decide⟩
  · unfold Goroutine3000.TokenBucket.AllowN
    rcases le_or_lt n (tb.refill now).tokens with h1 | h1
    · simp [h1]
    · simp [not_le.mpr h1, not_le_of_lt h1]
  · intro h1
    unfold Goroutine3000.TokenBucket.AllowN
    simp [h1]
  · intro h1
    unfold Goroutine3000.TokenBucket.AllowN
    simp [not_le.mpr h1]
  · intro h0
    unfold Goroutine3000.TokenBucket.AllowN
    rcases le_or_lt n (tb.refill now).tokens with h1 | h1
    · simp only [h1, ge_iff_le, if_pos]
      omega
    · simp only [not_le.mpr h1, ge_iff_le, if_neg]
      exact h0

/-- Witness for C5: at capacity 10 (no elapsed time), `AllowN 5` succeeds
and leaves exactly 5 tokens. -/
theorem allowN_all_or_nothing_witness :
    (Goroutine3000.NewTokenBucket 10 10 1000000000 0).AllowN 5 0 =
      (true, { (Goroutine3000.NewTokenBucket 10 10 1000000000 0).refill 0 with
        tokens := ((Goroutine3000.NewTokenBucket 10 10 1000000000 0).refill 0).tokens - 5 }) :=
  (allowN_all_or_nothing (Goroutine3000.NewTokenBucket 10 10 1000000000 0) 5 0).2.1
    (by decide)

/-- C10: `Allow` coincides with `AllowN 1` on every bucket state and time —
the guard `tokens > 0` is `tokens ≥ 1` over the integers and both perform
the identical refill-then-consume step. -/
theorem allow_eq_allowN_one (tb : Goroutine3000.TokenBucket) (now : Int) :
    tb.Allow now = tb.AllowN 1 now := by
  unfold Goroutine3000.TokenBucket.Allow Goroutine3000.TokenBucket.AllowN
  rcases lt_or_le 0 (tb.refill now).tokens with h1 | h1
  · rw [if_pos h1, if_pos (by omega)]
  · rw [if_neg (not_lt.mpr h1), if_neg (by omega)]

section BucketInvariant

open Goroutine3000

lemma refill_eq (tb : TokenBucket) (now : Int) :
    tb.refill now =
      if now - tb.lastRefill < tb.interval then tb
      else
        { tb with
          tokens :=
            if tb.tokens + (now - tb.lastRefill) / tb.interval * tb.refillRate
                > tb.capacity then
              tb.capacity
            else tb.tokens + (now - tb.lastRefill) / tb.interval * tb.refillRate
          lastRefill :=
            tb.lastRefill + (now - tb.lastRefill) / tb.interval * tb.interval } :=
  rfl

lemma allow_eq (tb : TokenBucket) (now : Int) :
    tb.Allow now =
      if (tb.refill now).tokens > 0 then
        (true, { tb.refill now with tokens := (tb.refill now).tokens - 1 })
      else (false, tb.refill now) :=
  rfl

lemma allowN_eq (tb : TokenBucket) (n now : Int) :
    tb.AllowN n now =
      if (tb.refill now).tokens ≥ n then
        (true, { tb.refill now with tokens := (tb.refill now).tokens - n })
      else (false, tb.refill now) :=
  rfl

lemma refill_fields (tb : TokenBucket) (now : Int) :
    (tb.refill now).capacity = tb.capacity ∧
    (tb.refill now).refillRate = tb.refillRate ∧
    (tb.refill now).interval = tb.interval := by
  rw [refill_eq]
  split <;> exact ⟨rfl, rfl, rfl⟩

lemma allow_fields (tb : TokenBucket) (now : Int) :
    (tb.Allow now).2.capacity = tb.capacity ∧
    (tb.Allow now).2.refillRate = tb.refillRate ∧
    (tb.Allow now).2.interval = tb.interval := by
  rw [allow_eq]
  rcases refill_fields tb now with ⟨h1, h2, h3⟩
  split <;> exact ⟨h1, h2, h3⟩

lemma allowN_fields (tb : TokenBucket) (n now : Int) :
    (tb.AllowN n now).2.capacity = tb.capacity ∧
    (tb.AllowN n now).2.refillRate = tb.refillRate ∧
    (tb.AllowN n now).2.interval = tb.interval := by
  rw [allowN_eq]
  rcases refill_fields tb now with ⟨h1, h2, h3⟩
  split <;> exact ⟨h1, h2, h3⟩

lemma refill_inv (tb : TokenBucket) (now : Int) (hr : 0 ≤ tb.refillRate)
    (hi : 0 < tb.interval) (hinv : BucketInv tb) : BucketInv (tb.refill now) := by
  rcases hinv with ⟨h0, hc⟩
  unfold TokenBucket.refill
  rcases lt_or_le (now - tb.lastRefill) tb.interval with hlt | hge
  · rw [if_pos hlt]; exact ⟨h0, hc⟩
  · rw [if_neg (not_lt.mpr hge)]
    have hp : 1 ≤ (now - tb.lastRefill) / tb.interval := by
      rw [Int.le_ediv_iff_mul_le hi]
      omega
    have hadd : 0 ≤ (now - tb.lastRefill) / tb.interval * tb.refillRate :=
      mul_nonneg (by omega) hr
    constructor
    · simp only [BucketInv]
      split <;> omega
    · simp only [BucketInv]
      split <;> omega

lemma allow_inv (tb : TokenBucket) (now : Int) (hr : 0 ≤ tb.refillRate)
    (hi : 0 < tb.interval) (hinv : BucketInv tb) : BucketInv (tb.Allow now).2 := by
  have h := refill_inv tb now hr hi hinv
  rcases h with ⟨h0, hc⟩
  rw [allow_eq]
  rcases lt_or_le 0 (tb.refill now).tokens with h1 | h1
  · rw [if_pos h1]
    constructor
    · show 0 ≤ (tb.refill now).tokens - 1
      omega
    · show (tb.refill now).tokens - 1 ≤ (tb.refill now).capacity
      omega
  · rw [if_neg (not_lt.mpr h1)]
    exact ⟨h0, hc⟩

lemma allowN_inv (tb : TokenBucket) (n now : Int) (hn : 0 ≤ n)
    (hr : 0 ≤ tb.refillRate) (hi : 0 < tb.interval) (hinv : BucketInv tb) :
    BucketInv (tb.AllowN n now).2 := by
  have h := refill_inv tb now hr hi hinv
  rcases h with ⟨h0, hc⟩
  rw [allowN_eq]
  rcases le_or_lt n (tb.refill now).tokens with h1 | h1
  · rw [if_pos h1]
    constructor
    · show 0 ≤ (tb.refill now).tokens - n
      omega
    · show (tb.refill now).tokens - n ≤ (tb.refill now).capacity
      omega
  · rw [if_neg (not_le.mpr h1)]
    exact ⟨h0, hc⟩

lemma runOps_inv (ops : List BucketOp) :
    ∀ tb : TokenBucket, BucketInv tb → 0 ≤ tb.refillRate → 0 < tb.interval →
      (∀ op ∈ ops, OpNonneg op) → BucketInv (runOps tb ops) := by
  induction ops with
  | nil => intro tb hinv _ _ _; exact hinv
  | cons op rest ih =>
    intro tb hinv hr hi hops
    cases op with
    | allow now =>
      have hf := allow_fields tb now
      unfold runOps
      exact ih _ (allow_inv tb now hr hi hinv) (hf.2.1 ▸ hr) (hf.2.2 ▸ hi)
        (fun o ho => hops o (List.mem_cons_of_mem _ ho))
    | allowN n now =>
      have hn : 0 ≤ n := hops _ (List.mem_cons_self _ _)
      have hf := allowN_fields tb n now
      unfold runOps
      exact ih _ (allowN_inv tb n now hn hr hi hinv) (hf.2.1 ▸ hr) (hf.2.2 ▸ hi)
        (fun o ho => hops o (List.mem_cons_of_mem _ ho))

end BucketInvariant

/-- C2 counterexample: the claim as stated fails on the code.  With
capacity 1 (so `capacity ≥ 1`), a single `AllowN (-1)` call leaves
`tokens = 2 > capacity`; moreover a bucket built with a negative refill rate
(`NewTokenBucket 1 (-5) 1`) drops to `tokens = -4 < 0` after one `Allow`
once an interval elapsed, and one built with a negative interval
(`NewTokenBucket 1 2 (-2)`) reaches `tokens = -1 < 0`. -/
theorem bucket_invariant_counterexample :
    (1 ≤ (Goroutine3000.NewTokenBucket 1 1 60000000000 0).capacity ∧
      ((Goroutine3000.NewTokenBucket 1 1 60000000000 0).AllowN (-1) 0).2.tokens >
        ((Goroutine3000.NewTokenBucket 1 1 60000000000 0).AllowN (-1) 0).2.capacity) ∧
    ((Goroutine3000.NewTokenBucket 1 (-5) 1 0).Allow 1).2.tokens < 0 ∧
    ((Goroutine3000.NewTokenBucket 1 2 (-2) 0).Allow 3).2.tokens < 0 := by
  decide

/-- C2 amended: for every `TokenBucket` created with `capacity ≥ 1`, a
non-negative `refillRate` and a positive `interval`, and every sequence of
`Allow` and `AllowN n` calls with `n ≥ 0`, the invariant
`0 ≤ tokens ≤ capacity` holds after every call. -/
theorem bucket_invariant_holds (capacity refillRate interval start : Int)
    (hcap : 1 ≤ capacity) (hr : 0 ≤ refillRate) (hi : 0 < interval)
    (ops : List Goroutine3000.BucketOp)
    (hops : ∀ op ∈ ops, Goroutine3000.OpNonneg op) :
    Goroutine3000.BucketInv
      (Goroutine3000.runOps
        (Goroutine3000.NewTokenBucket capacity refillRate interval start) ops) :=
  runOps_inv ops _ ⟨(by omega : (0 : Int) ≤ capacity), le_refl capacity⟩ hr hi hops

/-- Witness for C2 amended: capacity 2, refill 1, interval 10; the sequence
`Allow; AllowN 1; AllowN 5` keeps `0 ≤ tokens ≤ capacity`. -/
theorem bucket_invariant_holds_witness :
    Goroutine3000.BucketInv
      (Goroutine3000.runOps (Goroutine3000.NewTokenBucket 2 1 10 0)
        [Goroutine3000.BucketOp.allow 0, Goroutine3000.BucketOp.allowN 1 0,
         Goroutine3000.BucketOp.allowN 5 0]) :=
  bucket_invariant_holds 2 1 10 0 (by decide) (by decide) (by decide) _ (by decide)

section ExactAdmission

open Goroutine3000

lemma runAllows_succ (tb : Goroutine3000.TokenBucket) (now : Int) (k : Nat) :
    Goroutine3000.runAllows tb now (Nat.succ k)
      = ((if (tb.Allow now).1 then 1 else 0)
          + (Goroutine3000.runAllows (tb.Allow now).2 now k).1,
         (Goroutine3000.runAllows (tb.Allow now).2 now k).2) :=
  rfl

lemma runAllows_count (now : Int) :
    ∀ (n : Nat) (tb : TokenBucket), now - tb.lastRefill < tb.interval →
      0 ≤ tb.tokens → (runAllows tb now n).1 = min n tb.tokens.toNat := by
  intro n
  induction n with
  | zero =>
    intro tb _ _
    simp [runAllows]
  | succ k ih =>
    intro tb hlt h0
    have hrf : tb.refill now = tb := by rw [refill_eq, if_pos hlt]
    rcases lt_or_le 0 tb.tokens with hp | hp
    · have hA : tb.Allow now = (true, { tb with tokens := tb.tokens - 1 }) := by
        rw [allow_eq, hrf, if_pos hp]
      have hk2 : (runAllows { tb with tokens := tb.tokens - 1 } now k).1
          = min k (tb.tokens - 1).toNat :=
        ih { tb with tokens := tb.tokens - 1 } hlt
          (by show 0 ≤ tb.tokens - 1; omega)
      rw [runAllows_succ, hA]
      show 1 + (runAllows { tb with tokens := tb.tokens - 1 } now k).1
          = min (Nat.succ k) tb.tokens.toNat
      rw [hk2]
      omega
    · have htz : tb.tokens = 0 := le_antisymm hp h0
      have hA : tb.Allow now = (false, tb) := by
        rw [allow_eq, hrf, if_neg (not_lt.mpr hp)]
      have hk := ih tb hlt h0
      rw [runAllows_succ, hA]
      show 0 + (runAllows tb now k).1 = min (Nat.succ k) tb.tokens.toNat
      rw [hk]
      omega

end ExactAdmission

/-- C8: exact admission under concurrency.  Each `Allow` holds the bucket's
mutex for its whole refill-compare-decrement step, so any concurrent
execution of `N` callers is equivalent to some sequential order of `N`
atomic `Allow` calls; since the callers are identical, every interleaving is
the run `runAllows`.  With capacity `C`, zero elapsed time and `N > C`
callers, exactly `C` calls return `true` and the remaining `N - C` return
`false`. -/
theorem allow_exact_admission (C N : Nat) (refillRate interval now : Int)
    (hi : 0 < interval) (hN : C < N) :
    (Goroutine3000.runAllows
        (Goroutine3000.NewTokenBucket (C : Int) refillRate interval now) now N).1
      = C ∧
    N - (Goroutine3000.runAllows
        (Goroutine3000.NewTokenBucket (C : Int) refillRate interval now) now N).1
      = N - C := by
  have h := runAllows_count now N
    (Goroutine3000.NewTokenBucket (C : Int) refillRate interval now)
    (by show now - now < interval; omega)
    (by show (0 : Int) ≤ (C : Int); omega)
  have hc : ((C : Int)).toNat = C := Int.toNat_natCast C
  constructor
  · rw [h]
    show min N ((C : Int)).toNat = C
    omega
  · rw [h]
    show N - min N ((C : Int)).toNat = N - C
    omega

set_option maxRecDepth 4000 in
/-- Witness for C8: the spec's example — capacity 100, refill 100, interval
one minute, 200 callers ⇒ exactly 100 admitted, 100 denied. -/
theorem allow_exact_admission_witness :
    (Goroutine3000.runAllows
        (Goroutine3000.NewTokenBucket (100 : Int) 100 60000000000 0) 0 200).1
      = 100 ∧
    200 - (Goroutine3000.runAllows
        (Goroutine3000.NewTokenBucket (100 : Int) 100 60000000000 0) 0 200).1
      = 200 - 100 :=
  allow_exact_admission 100 200 100 60000000000 0 (by decide) (by decide)

section RoundRobin

open Goroutine3000

lemma nextBackendLoop_succ (backends : List Backend) (current k : Nat) :
    nextBackendLoop backends current (Nat.succ k)
      = match backends.get? ((current + 1) % backends.length) with
        | some b =>
          if b.IsAlive then (some b, (current + 1) % backends.length)
          else nextBackendLoop backends ((current + 1) % backends.length) k
        | none => (none, (current + 1) % backends.length) :=
  rfl

lemma nextBackendLoop_none (backends : List Backend)
    (hdead : ∀ b ∈ backends, b.IsAlive = false) :
    ∀ (fuel current : Nat), (nextBackendLoop backends current fuel).1 = none := by
  intro fuel
  induction fuel with
  | zero => intro current; rfl
  | succ k ih =>
    intro current
    rw [nextBackendLoop_succ]
    rcases hget : backends.get? ((current + 1) % backends.length) with _ | b
    · rfl
    · have hb : b ∈ backends := List.get?_mem hget
      dsimp only
      rw [hdead b hb]
      simpa using ih ((current + 1) % backends.length)

lemma nextBackendLoop_first (backends : List Backend) :
    ∀ (fuel current j : Nat), 1 ≤ j → j ≤ fuel →
      (∀ i : Nat, 1 ≤ i → i < j → ∀ b : Backend,
        backends.get? ((current + i) % backends.length) = some b →
          b.IsAlive = false) →
      ∀ b : Backend,
        backends.get? ((current + j) % backends.length) = some b →
        b.IsAlive = true →
        nextBackendLoop backends current fuel
          = (some b, (current + j) % backends.length) := by
  intro fuel
  induction fuel with
  | zero => intro current j hj hjf; omega
  | succ k ih =>
    intro current j hj hjf hblock b hget halive
    have hlen : 0 < backends.length := by
      rcases List.get?_eq_some.mp hget with ⟨hlt, _⟩
      omega
    rcases eq_or_lt_of_le hj with hj1 | hj2
    · rw [nextBackendLoop_succ]
      rw [← hj1] at hget
      rw [hget]
      dsimp only
      rw [halive]
      rw [← hj1]
      rfl
    · rcases hget1 : backends.get? ((current + 1) % backends.length) with _ | b1
      · exfalso
        have := List.get?_eq_none.mp hget1
        have := Nat.mod_lt (current + 1) hlen
        omega
      · have hb1dead : b1.IsAlive = false := hblock 1 (le_refl 1) hj2 b1 hget1
        rw [nextBackendLoop_succ, hget1]
        dsimp only
        rw [hb1dead]
        have hmod : ∀ m : Nat,
            ((current + 1) % backends.length + m) % backends.length
              = (current + 1 + m) % backends.length := by
          intro m
          exact Nat.mod_add_mod (current + 1) backends.length m
        have hblock2 : ∀ i : Nat, 1 ≤ i → i < j - 1 → ∀ b2 : Backend,
            backends.get? (((current + 1) % backends.length + i) % backends.length)
              = some b2 → b2.IsAlive = false := by
          intro i hi1 hi2 b2 hg
          rw [hmod i] at hg
          have : current + 1 + i = current + (i + 1) := by omega
          rw [this] at hg
          exact hblock (i + 1) (by omega) (by omega) b2 hg
        have hget2 :
            backends.get? (((current + 1) % backends.length + (j - 1)) % backends.length)
              = some b := by
          rw [hmod (j - 1)]
          have : current + 1 + (j - 1) = current + j := by omega
          rw [this]
          exact hget
        have := ih ((current + 1) % backends.length) (j - 1) (by omega) (by omega)
          hblock2 b hget2 halive
        rw [this, hmod (j - 1)]
        have : current + 1 + (j - 1) = current + j := by omega
        rw [this]
        simp

end RoundRobin

/-- C4: `Route.NextBackend` advances the cursor by one modulo the backend
count and scans at most `len(Backends)` positions from the new cursor: it
returns the backend at the first offset `j ∈ [1, len]` whose backend is
alive (updating the cursor to that position), and returns `none` when every
backend is dead.  Concretely, with backends `[B1 alive, B2 dead, B3 alive]`
and cursor `0`, four successive calls return `B3, B1, B3, B1` — only `B1`
and `B3`, in round-robin order, never `B2` — and with all backends dead the
result is `none`. -/
theorem nextBackend_spec (r : Goroutine3000.Route) :
    ((∀ b ∈ r.Backends, b.IsAlive = false) → (r.NextBackend).1 = none) ∧
    (∀ j : Nat, 1 ≤ j → j ≤ r.Backends.length →
      (∀ i : Nat, 1 ≤ i → i < j → ∀ b : Goroutine3000.Backend,
        r.Backends.get? ((r.current + i) % r.Backends.length) = some b →
          b.IsAlive = false) →
      ∀ b : Goroutine3000.Backend,
        r.Backends.get? ((r.current + j) % r.Backends.length) = some b →
        b.IsAlive = true →
        r.NextBackend
          = (some b, { r with current := (r.current + j) % r.Backends.length })) ∧
    (((Goroutine3000.cycleRoute.NextBackend).1
        = some { URL := "b3", Alive := true } ∧
      (((Goroutine3000.cycleRoute.NextBackend).2).NextBackend).1
        = some { URL := "b1", Alive := true } ∧
      (((((Goroutine3000.cycleRoute.NextBackend).2).NextBackend).2).NextBackend).1
        = some { URL := "b3", Alive := true } ∧
      (((((((Goroutine3000.cycleRoute.NextBackend).2).NextBackend).2).NextBackend).2).NextBackend).1
        = some { URL := "b1", Alive := true })) := by
  refine ⟨?_, ?_, by decide, by decide, by decide, by decide⟩
  · intro hdead
    unfold Goroutine3000.Route.NextBackend
    exact nextBackendLoop_none r.Backends hdead r.Backends.length r.current
  · intro j hj1 hj2 hblock b hget halive
    have h := nextBackendLoop_first r.Backends r.Backends.length r.current j hj1 hj2
      hblock b hget halive
    unfold Goroutine3000.Route.NextBackend
    rw [h]

/-- Witness for C4: a route whose only backend is dead yields `none`, and
offset 2 from cursor 0 in the `[B1 alive, B2 dead, B3 alive]` route selects
`B3` (index 2) because the backend at offset 1 (`B2`) is dead. -/
theorem nextBackend_spec_witness :
    (Goroutine3000.Route.NextBackend
      { Path := "/dead", Backends := [{ URL := "x", Alive := false }], current := 0 }).1
      = none ∧
    Goroutine3000.cycleRoute.NextBackend
      = (some { URL := "b3", Alive := true },
         { Goroutine3000.cycleRoute with current := (0 + 2) % 3 }) :=
  ⟨(nextBackend_spec
      { Path := "/dead", Backends := [{ URL := "x", Alive := false }], current := 0 }).1
      (by decide),
   (nextBackend_spec Goroutine3000.cycleRoute).2.1 2 (by decide) (by decide)
      (by decide) { URL := "b3", Alive := true } (by decide) (by decide)⟩

section RouteRegistration

open Goroutine3000

lemma lookupKey_replace_self {α : Type} (m : List (String × α)) (k : String) (v : α)
    (h : (lookupKey m k).isSome) :
    lookupKey (m.map (fun kv => if kv.1 = k then (kv.1, v) else kv)) k = some v := by
  induction m with
  | nil => simp [lookupKey] at h
  | cons kv rest ih =>
    by_cases hk : kv.1 = k
    · simp [lookupKey, hk]
    · simp only [lookupKey, hk, if_false, List.map_cons] at h ⊢
      exact ih h

lemma lookupKey_replace_other {α : Type} (m : List (String × α)) (k p : String) (v : α)
    (hne : p ≠ k) :
    lookupKey (m.map (fun kv => if kv.1 = k then (kv.1, v) else kv)) p
      = lookupKey m p := by
  induction m with
  | nil => rfl
  | cons kv rest ih =>
    by_cases hk : kv.1 = k
    · have hp : ¬ kv.1 = p := by rw [hk]; exact fun h => hne h.symm
      simp only [List.map_cons, if_pos hk, lookupKey, hp, if_false]
      exact ih
    · simp only [List.map_cons, if_neg hk, lookupKey]
      by_cases hp : kv.1 = p
      · rw [if_pos hp, if_pos hp]
      · rw [if_neg hp, if_neg hp]
        exact ih

lemma lookupKey_mapSet_self (m : List (String × Route)) (k : String) (v : Route) :
    lookupKey (mapSet m k v) k = some v := by
  unfold mapSet
  rcases h : lookupKey m k with _ | w
  · rw [if_neg (by simp [h])]
    simp [lookupKey]
  · rw [if_pos (by simp [h])]
    exact lookupKey_replace_self m k v (by simp [h])

lemma lookupKey_mapSet_other (m : List (String × Route)) (k p : String) (v : Route)
    (hne : p ≠ k) :
    lookupKey (mapSet m k v) p = lookupKey m p := by
  unfold mapSet
  rcases h : lookupKey m k with _ | w
  · rw [if_neg (by simp [h])]
    show (if k = p then some v else lookupKey m p) = lookupKey m p
    rw [if_neg fun h2 => hne h2.symm]
  · rw [if_pos (by simp [h])]
    exact lookupKey_replace_other m k p v hne

lemma buildBackends_err (parseURL : String → Option String) :
    ∀ (urls : List String) (u : String), u ∈ urls → parseURL u = none →
      ∃ e, buildBackends parseURL urls = Except.error e := by
  intro urls
  induction urls with
  | nil => intro u hu; exact absurd hu (List.not_mem_nil u)
  | cons u0 rest ih =>
    intro u hu hnone
    rcases List.mem_cons.mp hu with heq | hrest
    · subst heq
      exact ⟨"invalid backend URL " ++ u, by unfold buildBackends; rw [hnone]⟩
    · rcases hp0 : parseURL u0 with _ | w
      · exact ⟨"invalid backend URL " ++ u0, by unfold buildBackends; rw [hp0]⟩
      · rcases ih u hrest hnone with ⟨e, he⟩
        refine ⟨e, ?_⟩
        unfold buildBackends
        rw [hp0, he]

end RouteRegistration

/-- C6: `AddRoute(path, targets)` is atomic and idempotent per path: when
some target URL fails to parse, the call returns a configuration error and
the routing table is exactly as before (no partial route, other routes
untouched); when every target parses (i.e. the backend build succeeds with
list `bs`), no error is returned, the table maps `path` to the new route —
replacing any prior route at `path` — and every other path's entry is
unchanged. -/
theorem addRoute_atomic (g : Goroutine3000.Gateway)
    (parseURL : String → Option String) (path : String) (urls : List String) :
    ((∃ u ∈ urls, parseURL u = none) →
      ((g.AddRoute parseURL path urls).1.isSome ∧
        (g.AddRoute parseURL path urls).2 = g)) ∧
    (∀ bs : List Goroutine3000.Backend,
      Goroutine3000.buildBackends parseURL urls = Except.ok bs →
      ((g.AddRoute parseURL path urls).1 = none ∧
        Goroutine3000.lookupKey (g.AddRoute parseURL path urls).2.routes path
          = some { Path := path, Backends := bs, current := 0 } ∧
        ∀ p : String, p ≠ path →
          Goroutine3000.lookupKey (g.AddRoute parseURL path urls).2.routes p
            = Goroutine3000.lookupKey g.routes p)) := by
  constructor
  · intro hbad
    rcases hbad with ⟨u, hu, hnone⟩
    rcases buildBackends_err parseURL urls u hu hnone with ⟨e, he⟩
    unfold Goroutine3000.Gateway.AddRoute
    rw [he]
    exact ⟨rfl, rfl⟩
  · intro bs hok
    unfold Goroutine3000.Gateway.AddRoute
    rw [hok]
    refine ⟨rfl, ?_, ?_⟩
    · exact lookupKey_mapSet_self g.routes path _
    · intro p hp
      exact lookupKey_mapSet_other g.routes path p _ hp

/-- Witness for C6: a gateway with one existing route; adding `/api` with
targets `[good, bad]` where `bad` fails to parse returns an error and leaves
the table untouched, while adding with targets `[good]` installs the route. -/
theorem addRoute_atomic_witness :
    ((Goroutine3000.Gateway.AddRoute
        { routes := [("/old", Goroutine3000.cycleRoute)]
          limiter := Goroutine3000.NewLimiter 100 100 60000000000 0
          healthCheck := 10000000000 }
        (fun u => if u = "bad" then none else some u) "/api" ["good", "bad"]).1.isSome ∧
      (Goroutine3000.Gateway.AddRoute
        { routes := [("/old", Goroutine3000.cycleRoute)]
          limiter := Goroutine3000.NewLimiter 100 100 60000000000 0
          healthCheck := 10000000000 }
        (fun u => if u = "bad" then none else some u) "/api" ["good", "bad"]).2
        = { routes := [("/old", Goroutine3000.cycleRoute)]
            limiter := Goroutine3000.NewLimiter 100 100 60000000000 0
            healthCheck := 10000000000 }) ∧
    Goroutine3000.lookupKey
      (Goroutine3000.Gateway.AddRoute
        { routes := [("/old", Goroutine3000.cycleRoute)]
          limiter := Goroutine3000.NewLimiter 100 100 60000000000 0
          healthCheck := 10000000000 }
        (fun u => if u = "bad" then none else some u) "/api" ["good"]).2.routes "/api"
      = some { Path := "/api", Backends := [{ URL := "good", Alive := true }], current := 0 } :=
  ⟨(addRoute_atomic
      { routes := [("/old", Goroutine3000.cycleRoute)]
        limiter := Goroutine3000.NewLimiter 100 100 60000000000 0
        healthCheck := 10000000000 }
      (fun u => if u = "bad" then none else some u) "/api" ["good", "bad"]).1
      ⟨"bad", by decide, by decide⟩,
   ((addRoute_atomic
      { routes := [("/old", Goroutine3000.cycleRoute)]
        limiter := Goroutine3000.NewLimiter 100 100 60000000000 0
        healthCheck := 10000000000 }
      (fun u => if u = "bad" then none else some u) "/api" ["good"]).2
      [{ URL := "good", Alive := true }] (by rfl)).2.1⟩

/-- C7: a health probe marks a backend alive iff the probe obtained a
response whose status lies in `[200, 500)` (success or client error, not
server error); a request-construction or transport failure counts as not
alive; and `healthCheckAll` totally maps every backend of every route to its
probe verdict via `SetAlive` — probe failures update liveness instead of
propagating. -/
theorem health_probe_spec (probe : Goroutine3000.Backend → Goroutine3000.ProbeResult)
    (routes : List Goroutine3000.Route) :
    (∀ outcome : Goroutine3000.ProbeResult,
      Goroutine3000.isBackendAlive outcome = true ↔
        ∃ s : Nat, outcome = Goroutine3000.ProbeResult.response s ∧
          200 ≤ s ∧ s < 500) ∧
    Goroutine3000.isBackendAlive Goroutine3000.ProbeResult.requestError = false ∧
    Goroutine3000.isBackendAlive Goroutine3000.ProbeResult.transportError = false ∧
    (∀ (i j : Nat) (r : Goroutine3000.Route) (b : Goroutine3000.Backend),
      routes.get? i = some r → r.Backends.get? j = some b →
      ∃ r2 : Goroutine3000.Route,
        (Goroutine3000.healthCheckAll routes probe).get? i = some r2 ∧
        r2.Backends.get? j
          = some (b.SetAlive (Goroutine3000.isBackendAlive (probe b)))) := by
  refine ⟨?_, rfl, rfl, ?_⟩
  · intro outcome
    cases outcome with
    | requestError => simp [Goroutine3000.isBackendAlive]
    | transportError => simp [Goroutine3000.isBackendAlive]
    | response s =>
      simp only [Goroutine3000.isBackendAlive, decide_eq_true_eq]
      constructor
      · intro h
        exact ⟨s, rfl, h⟩
      · intro h
        rcases h with ⟨s2, hs2, h2⟩
        cases hs2
        exact h2
  · intro i j r b hi hj
    unfold Goroutine3000.healthCheckAll
    refine ⟨{ r with Backends := r.Backends.map (fun b2 => b2.SetAlive (Goroutine3000.isBackendAlive (probe b2))) }, ?_, ?_⟩
    · rw [List.get?_map, hi]
      rfl
    · dsimp only
      rw [List.get?_map, hj]
      rfl

/-- Witness for C7: probing the `[B1 alive, B2 dead, B3 alive]` route with a
probe that answers `200` for `b1` and a transport error otherwise updates
`b1` to alive. -/
theorem health_probe_spec_witness :
    ∃ r2 : Goroutine3000.Route,
      (Goroutine3000.healthCheckAll [Goroutine3000.cycleRoute]
        (fun b => if b.URL = "b1" then Goroutine3000.ProbeResult.response 200
                  else Goroutine3000.ProbeResult.transportError)).get? 0 = some r2 ∧
      r2.Backends.get? 0
        = some (Goroutine3000.Backend.SetAlive { URL := "b1", Alive := true }
            (Goroutine3000.isBackendAlive
              (if ({ URL := "b1", Alive := true } : Goroutine3000.Backend).URL = "b1"
                then Goroutine3000.ProbeResult.response 200
                else Goroutine3000.ProbeResult.transportError))) :=
  (health_probe_spec
      (fun b => if b.URL = "b1" then Goroutine3000.ProbeResult.response 200
                else Goroutine3000.ProbeResult.transportError)
      [Goroutine3000.cycleRoute]).2.2.2 0 0 Goroutine3000.cycleRoute
      { URL := "b1", Alive := true } (by rfl) (by rfl)

section MiddlewareHeaders

open Goroutine3000

lemma cleanup_fields (l : Limiter) (now : Int) :
    (l.cleanupIfNeeded now).capacity = l.capacity ∧
    (l.cleanupIfNeeded now).refillRate = l.refillRate ∧
    (l.cleanupIfNeeded now).interval = l.interval ∧
    (l.cleanupIfNeeded now).cleanupInterval = l.cleanupInterval := by
  unfold Limiter.cleanupIfNeeded
  split <;> exact ⟨rfl, rfl, rfl, rfl⟩

lemma getBucket_fields (l : Limiter) (key : String) (now : Int) :
    (l.getBucket key now).2.capacity = l.capacity ∧
    (l.getBucket key now).2.refillRate = l.refillRate ∧
    (l.getBucket key now).2.interval = l.interval ∧
    (l.getBucket key now).2.cleanupInterval = l.cleanupInterval := by
  rcases h : lookupKey l.buckets key with _ | b
  · simp only [Limiter.getBucket, h]
    rcases h2 : lookupKey ((Limiter.cleanupIfNeeded
        { l with buckets := (key, NewTokenBucket l.capacity l.refillRate l.interval now)
            :: l.buckets } now).buckets) key with _ | b2 <;>
      simp only [h2] <;>
      exact cleanup_fields _ now
  · simp only [Limiter.getBucket, h]
    exact ⟨trivial, trivial, trivial, trivial⟩

lemma storeBucket_fields (l : Limiter) (key : String) (b : TokenBucket) :
    (l.storeBucket key b).capacity = l.capacity ∧
    (l.storeBucket key b).refillRate = l.refillRate ∧
    (l.storeBucket key b).interval = l.interval ∧
    (l.storeBucket key b).cleanupInterval = l.cleanupInterval := by
  unfold Limiter.storeBucket
  split <;> exact ⟨rfl, rfl, rfl, rfl⟩

lemma limiter_allow_eq (l : Limiter) (key : String) (now : Int) :
    l.Allow key now
      = (((l.getBucket key now).1.Allow now).1,
         (l.getBucket key now).2.storeBucket key ((l.getBucket key now).1.Allow now).2) :=
  rfl

lemma limiter_allow_fields (l : Limiter) (key : String) (now : Int) :
    (l.Allow key now).2.capacity = l.capacity ∧
    (l.Allow key now).2.interval = l.interval := by
  rw [limiter_allow_eq]
  rcases storeBucket_fields (l.getBucket key now).2 key ((l.getBucket key now).1.Allow now).2
    with ⟨h1, _, h3, _⟩
  rcases getBucket_fields l key now with ⟨g1, _, g3, _⟩
  exact ⟨h1.trans g1, h3.trans g3⟩

end MiddlewareHeaders

/-- C3 counterexample: the claim fails on the code — a denied request gets
`DefaultRateLimitHandler`'s `429` response, which carries no rate-limit
headers.  Concretely, with a limiter of capacity 1, the second request from
the same key is denied and both `X-RateLimit-Limit` and `X-RateLimit-Reset`
are absent from that response. -/
theorem rate_limit_headers_counterexample :
    ((Goroutine3000.RateLimitMiddleware
        ((Goroutine3000.RateLimitMiddleware (Goroutine3000.NewLimiter 1 1 60000000000 0)
          false "1.2.3.4" 0).2) false "1.2.3.4" 0).1.forcedStatus = some 429) ∧
    ((Goroutine3000.RateLimitMiddleware
        ((Goroutine3000.RateLimitMiddleware (Goroutine3000.NewLimiter 1 1 60000000000 0)
          false "1.2.3.4" 0).2) false "1.2.3.4" 0).1.headers.limit = none) ∧
    ((Goroutine3000.RateLimitMiddleware
        ((Goroutine3000.RateLimitMiddleware (Goroutine3000.NewLimiter 1 1 60000000000 0)
          false "1.2.3.4" 0).2) false "1.2.3.4" 0).1.headers.reset = none) := by
  decide

/-- C3 amended: only admitted (non-skipped) requests carry the rate-limit
headers — `X-RateLimit-Limit` equal to the limiter's configured capacity and
`X-RateLimit-Reset` equal to the epoch seconds of `now + interval` (interval
truncated to whole milliseconds, as `Stats` reports it) — while a denied
request is answered by `DefaultRateLimitHandler` (status 429) with no
rate-limit headers. -/
theorem rate_limit_headers_admitted (l : Goroutine3000.Limiter) (key : String)
    (now : Int) :
    ((l.Allow key now).1 = true →
      (Goroutine3000.RateLimitMiddleware l false key now).1.forwarded = true ∧
      (Goroutine3000.RateLimitMiddleware l false key now).1.headers.limit
        = some l.capacity ∧
      (Goroutine3000.RateLimitMiddleware l false key now).1.headers.reset
        = some (Goroutine3000.unixSeconds (now + l.interval / 1000000 * 1000000))) ∧
    ((l.Allow key now).1 = false →
      (Goroutine3000.RateLimitMiddleware l false key now).1
        = Goroutine3000.DefaultRateLimitHandler) := by
  rcases limiter_allow_fields l key now with ⟨hcap, hint⟩
  constructor
  · intro h
    unfold Goroutine3000.RateLimitMiddleware
    rw [if_neg (by simp)]
    simp only [h, if_true]
    refine ⟨trivial, ?_, ?_⟩
    · show some (l.Allow key now).2.Stats.capacity = some l.capacity
      unfold Goroutine3000.Limiter.Stats
      rw [hcap]
    · show some (Goroutine3000.unixSeconds
          (now + (l.Allow key now).2.Stats.interval_ms * 1000000))
        = some (Goroutine3000.unixSeconds (now + l.interval / 1000000 * 1000000))
      unfold Goroutine3000.Limiter.Stats
      rw [hint]
  · intro h
    unfold Goroutine3000.RateLimitMiddleware
    rw [if_neg (by simp)]
    simp only [h]
    rfl

/-- Witness for C3 amended: the first request on a fresh capacity-5 limiter
is admitted and its response carries limit 5 and the reset estimate. -/
theorem rate_limit_headers_admitted_witness :
    (Goroutine3000.RateLimitMiddleware (Goroutine3000.NewLimiter 5 5 60000000000 0)
      false "1.2.3.4" 0).1.forwarded = true ∧
    (Goroutine3000.RateLimitMiddleware (Goroutine3000.NewLimiter 5 5 60000000000 0)
      false "1.2.3.4" 0).1.headers.limit = some 5 ∧
    (Goroutine3000.RateLimitMiddleware (Goroutine3000.NewLimiter 5 5 60000000000 0)
      false "1.2.3.4" 0).1.headers.reset
      = some (Goroutine3000.unixSeconds (0 + 60000000000 / 1000000 * 1000000)) :=
  (rate_limit_headers_admitted (Goroutine3000.NewLimiter 5 5 60000000000 0)
    "1.2.3.4" 0).1 (by decide)

section CleanupOrphan

open Goroutine3000

lemma available_eq (tb : TokenBucket) (now : Int) :
    tb.Available now = ((tb.refill now).tokens, tb.refill now) :=
  rfl

lemma fresh_refill (capacity refillRate interval now : Int) (hint : 0 < interval) :
    (NewTokenBucket capacity refillRate interval now).refill now
      = NewTokenBucket capacity refillRate interval now := by
  have hc : now - (NewTokenBucket capacity refillRate interval now).lastRefill
      < (NewTokenBucket capacity refillRate interval now).interval := by
    show now - now < interval
    omega
  rw [refill_eq, if_pos hc]

lemma lookupKey_none_iff {α : Type} (m : List (String × α)) (key : String)
    (kb : String × α) (h : lookupKey (kb :: m) key = none) :
    ¬ kb.1 = key ∧ lookupKey m key = none := by
  by_cases hk : kb.1 = key
  · exfalso
    simp [lookupKey, hk] at h
  · refine ⟨hk, ?_⟩
    simpa [lookupKey, hk] using h

lemma lookupKey_map_filter_none {α β : Type} (f : α → β) (p : String × β → Bool)
    (key : String) :
    ∀ m : List (String × α), lookupKey m key = none →
      lookupKey ((m.map (fun kb => (kb.1, f kb.2))).filter p) key = none := by
  intro m
  induction m with
  | nil => intro _; rfl
  | cons kb rest ih =>
    intro h
    rcases lookupKey_none_iff rest key kb h with ⟨hk, hrest⟩
    rw [List.map_cons, List.filter_cons]
    split
    · show (if (kb.1, f kb.2).1 = key then some (kb.1, f kb.2).2
        else lookupKey ((rest.map (fun kb => (kb.1, f kb.2))).filter p) key) = none
      rw [if_neg hk]
      exact ih hrest
    · exact ih hrest

lemma not_mem_keys_of_lookupKey_none {α : Type} (key : String) :
    ∀ m : List (String × α), lookupKey m key = none → key ∉ m.map Prod.fst := by
  intro m
  induction m with
  | nil => intro _; simp
  | cons kb rest ih =>
    intro h
    rcases lookupKey_none_iff rest key kb h with ⟨hk, hrest⟩
    simp only [List.map_cons, List.mem_cons]
    intro hmem
    rcases hmem with heq | hmem
    · exact hk heq.symm
    · exact ih hrest hmem

lemma cleanup_due_absent (l : Limiter) (key : String) (now : Int)
    (hdue : l.cleanupInterval ≤ now - l.lastCleanup) (hint : 0 < l.interval) :
    Limiter.cleanupIfNeeded
      { l with buckets :=
          (key, NewTokenBucket l.capacity l.refillRate l.interval now) :: l.buckets } now
      = { l with
          buckets := (l.buckets.map (fun kb => (kb.1, (kb.2.Available now).2))).filter
            (fun kb => ¬ kb.2.tokens = kb.2.Capacity)
          lastCleanup := now } := by
  unfold Limiter.cleanupIfNeeded
  rw [if_neg (show ¬ (now -
      ({ l with buckets :=
          (key, NewTokenBucket l.capacity l.refillRate l.interval now) :: l.buckets }
        : Limiter).lastCleanup
      < ({ l with buckets :=
          (key, NewTokenBucket l.capacity l.refillRate l.interval now) :: l.buckets }
        : Limiter).cleanupInterval) from by show ¬ (now - l.lastCleanup < l.cleanupInterval); omega)]
  show ({ l with
      buckets := ((((key, NewTokenBucket l.capacity l.refillRate l.interval now)
          :: l.buckets).map (fun kb => (kb.1, (kb.2.Available now).2))).filter
            (fun kb => ¬ kb.2.tokens = kb.2.Capacity))
      lastCleanup := now } : Limiter) = _
  rw [List.map_cons, List.filter_cons]
  have havail : ((NewTokenBucket l.capacity l.refillRate l.interval now).Available now).2
      = NewTokenBucket l.capacity l.refillRate l.interval now := by
    rw [available_eq, fresh_refill l.capacity l.refillRate l.interval now hint]
  rw [havail]
  rw [if_neg (by show ¬ (decide ¬ (NewTokenBucket l.capacity l.refillRate l.interval now).tokens
      = (NewTokenBucket l.capacity l.refillRate l.interval now).Capacity) = true; simp [TokenBucket.Capacity]; rfl)]

lemma getBucket_absent_cleanup (l : Limiter) (key : String) (now : Int)
    (habs : lookupKey l.buckets key = none)
    (hdue : l.cleanupInterval ≤ now - l.lastCleanup) (hint : 0 < l.interval) :
    l.getBucket key now
      = (NewTokenBucket l.capacity l.refillRate l.interval now,
         { l with
           buckets := (l.buckets.map (fun kb => (kb.1, (kb.2.Available now).2))).filter
             (fun kb => ¬ kb.2.tokens = kb.2.Capacity)
           lastCleanup := now }) := by
  simp only [Limiter.getBucket, habs]
  rw [cleanup_due_absent l key now hdue hint]
  rw [show lookupKey (({ l with
      buckets := (l.buckets.map (fun kb => (kb.1, (kb.2.Available now).2))).filter
        (fun kb => ¬ kb.2.tokens = kb.2.Capacity)
      lastCleanup := now } : Limiter)).buckets key = none from
    lookupKey_map_filter_none (fun b => (b.Available now).2)
      (fun kb => decide (¬ kb.2.tokens = kb.2.Capacity)) key l.buckets habs]
  rw [available_eq, fresh_refill l.capacity l.refillRate l.interval now hint]

lemma getBucket_fresh (l : Limiter) (key : String) (now : Int)
    (habs : lookupKey l.buckets key = none) (hint : 0 < l.interval) :
    (l.getBucket key now).1 = NewTokenBucket l.capacity l.refillRate l.interval now := by
  by_cases hdue : now - l.lastCleanup < l.cleanupInterval
  · simp only [Limiter.getBucket, habs]
    have hskip : Limiter.cleanupIfNeeded
        { l with buckets :=
            (key, NewTokenBucket l.capacity l.refillRate l.interval now) :: l.buckets } now
        = { l with buckets :=
            (key, NewTokenBucket l.capacity l.refillRate l.interval now) :: l.buckets } := by
      unfold Limiter.cleanupIfNeeded
      rw [if_pos (show now -
          ({ l with buckets :=
              (key, NewTokenBucket l.capacity l.refillRate l.interval now) :: l.buckets }
            : Limiter).lastCleanup
          < _ from hdue)]
    rw [hskip]
    rw [show lookupKey (({ l with buckets :=
        (key, NewTokenBucket l.capacity l.refillRate l.interval now) :: l.buckets }
          : Limiter)).buckets key
      = some (NewTokenBucket l.capacity l.refillRate l.interval now) from by
        show (if key = key then _ else _) = _
        rw [if_pos rfl]]
  · rw [getBucket_absent_cleanup l key now habs (by omega) hint]

end CleanupOrphan

/-- C9: when `Limiter.Allow(key)` creates a bucket for an absent key at a
moment when `now - lastCleanup ≥ cleanupInterval`, the cleanup pass inside
the same call deletes the just-inserted (full) bucket, yet the call still
consumes from the now-orphaned bucket and returns `true`; immediately
afterwards the map has no entry for `key` (so `Stats()["total_keys"]`, the
map's size, does not count it), and the next `getBucket` for `key` at any
time builds a fresh full bucket — the creating call's consumption is not
reflected in later admission decisions. -/
theorem limiter_cleanup_orphan (l : Goroutine3000.Limiter) (key : String) (now : Int)
    (habs : Goroutine3000.lookupKey l.buckets key = none)
    (hdue : l.cleanupInterval ≤ now - l.lastCleanup)
    (hint : 0 < l.interval) (hcap : 1 ≤ l.capacity) :
    (l.Allow key now).1 = true ∧
    Goroutine3000.lookupKey (l.Allow key now).2.buckets key = none ∧
    key ∉ (l.Allow key now).2.buckets.map Prod.fst ∧
    ((l.Allow key now).2.Stats).total_keys = (l.Allow key now).2.buckets.length ∧
    (∀ now2 : Int, ((l.Allow key now).2.getBucket key now2).1
      = Goroutine3000.NewTokenBucket l.capacity l.refillRate l.interval now2) := by
  have hgb := getBucket_absent_cleanup l key now habs hdue hint
  have hfa : (Goroutine3000.NewTokenBucket l.capacity l.refillRate l.interval now).Allow now
      = (true, { Goroutine3000.NewTokenBucket l.capacity l.refillRate l.interval now with
          tokens := (Goroutine3000.NewTokenBucket l.capacity l.refillRate l.interval now).tokens - 1 }) := by
    rw [allow_eq, fresh_refill l.capacity l.refillRate l.interval now hint]
    rw [if_pos (show (Goroutine3000.NewTokenBucket l.capacity l.refillRate l.interval now).tokens > 0
      from by show (0 : Int) < l.capacity; omega)]
  have hnone : Goroutine3000.lookupKey
      ((l.buckets.map (fun kb => (kb.1, (kb.2.Available now).2))).filter
        (fun kb => ¬ kb.2.tokens = kb.2.Capacity)) key = none :=
    lookupKey_map_filter_none (fun b => (b.Available now).2)
      (fun kb => decide (¬ kb.2.tokens = kb.2.Capacity)) key l.buckets habs
  have hallow : l.Allow key now
      = (true, { l with
          buckets := (l.buckets.map (fun kb => (kb.1, (kb.2.Available now).2))).filter
            (fun kb => ¬ kb.2.tokens = kb.2.Capacity)
          lastCleanup := now }) := by
    rw [limiter_allow_eq, hgb]
    show (_, Goroutine3000.Limiter.storeBucket _ key _) = _
    rw [hfa]
    unfold Goroutine3000.Limiter.storeBucket
    rw [if_neg (by show ¬ (Goroutine3000.lookupKey _ key).isSome = true; rw [hnone]; simp)]
  rw [hallow]
  refine ⟨rfl, hnone, not_mem_keys_of_lookupKey_none key _ hnone, rfl, ?_⟩
  intro now2
  exact getBucket_fresh _ key now2 hnone hint

/-- Witness for C9: a fresh limiter (capacity 2) whose `lastCleanup` lies a
full `cleanupInterval` in the past; the first `Allow("k")` creates, cleans
up and orphans the bucket: it returns `true`, yet the map no longer holds
`"k"` and the next `getBucket` builds a full bucket again. -/
theorem limiter_cleanup_orphan_witness :
    ((({ buckets := []
         capacity := 2
         refillRate := 2
         interval := 60000000000
         cleanupInterval := 300000000000
         lastCleanup := 0 } : Goroutine3000.Limiter).Allow "k" 300000000000).1 = true ∧
      Goroutine3000.lookupKey
        ((({ buckets := []
             capacity := 2
             refillRate := 2
             interval := 60000000000
             cleanupInterval := 300000000000
             lastCleanup := 0 } : Goroutine3000.Limiter).Allow "k" 300000000000).2.buckets)
        "k" = none) ∧
    ((({ buckets := []
         capacity := 2
         refillRate := 2
         interval := 60000000000
         cleanupInterval := 300000000000
         lastCleanup := 0 } : Goroutine3000.Limiter).Allow "k" 300000000000).2.getBucket
        "k" 300000000001).1
      = Goroutine3000.NewTokenBucket 2 2 60000000000 300000000001 := by
  have h := limiter_cleanup_orphan
    { buckets := []
      capacity := 2
      refillRate := 2
      interval := 60000000000
      cleanupInterval := 300000000000
      lastCleanup := 0 } "k" 300000000000 (by rfl) (by decide) (by decide) (by decide)
  exact ⟨⟨h.1, h.2.1⟩, h.2.2.2.2 300000000001⟩

end Goroutine3000
